import Mathlib

/-!
Verification of the SunClover HTTP backend core: the error-normalization
pipeline (common/utils parseError), the response-envelope middleware
(app.js _genericSuccessMiddleware and _genericErrorMiddleware together
with _simplifyError), the static error-code table (common/enum.js), the
role update handler (src/data/role/role-function.js updateRole) and the
configuration merge/freeze bootstrap (configuration.js).

The JavaScript values the pipeline manipulates are embedded as the
inductive type JsVal.  Throwing JavaScript code is embedded as
Option/Except-returning functions, where none / Except.error models a
thrown exception.  The random correlation code produced by
crypto.randomBytes(4).toString(hex) is modelled as an explicit String
parameter (randomHex): theorems quantify over it.  Object.freeze is
modelled by a boolean flag on object/array nodes, and strict-mode
property assignment (which throws on a frozen receiver) by jsSet
returning none on a frozen receiver.
-/

/-- Model of a JavaScript value as seen by this code base.  vErrObj is an
Error instance carrying the optional code and status fields the handlers
attach; vAgg is a bluebird Promise.AggregateError; vFunc is an opaque
function value (only the log-layout token function needs it); the
boolean on vArr and vObj is the Object.freeze flag. -/
inductive JsVal where
  | vNull
  | vUndefined
  | vStr (s : String)
  | vNum (n : Int)
  | vBool (b : Bool)
  | vFunc
  | vErrObj (name message : String) (code : Option String) (status : Option Nat)
  | vAgg (items : List JsVal)
  | vArr (frozen : Bool) (items : List JsVal)
  | vObj (frozen : Bool) (fields : List (String × JsVal))

/-- Property lookup on an object field list (first match wins, like a JS
object with unique keys). -/
def lookupField : List (String × JsVal) → String → Option JsVal
  | [], _ => none
  | (k, v) :: rest, key => if k = key then some v else lookupField rest key

/-- Property assignment on an object field list: replace in place when the
key exists, append otherwise. -/
def upsertField : List (String × JsVal) → String → JsVal → List (String × JsVal)
  | [], key, v => [(key, v)]
  | (k, w) :: rest, key, v =>
      if k = key then (k, v) :: rest else (k, w) :: upsertField rest key v

/-- Boolean prefix test on character lists (first argument is the
candidate prefix, second the scanned list). -/
def chIsPrefix : List Char → List Char → Bool
  | [], _ => true
  | _ :: _, [] => false
  | p :: ps, h :: hs => p = h && chIsPrefix ps hs

/-- Embedding of lodash startsWith: does s start with p. -/
def js_startsWith (s p : String) : Bool := chIsPrefix p.data s.data

/-- Embedding of lodash endsWith: does s end with p. -/
def js_endsWith (s p : String) : Bool := chIsPrefix p.data.reverse s.data.reverse

/-- Number of indices of hay at which needle occurs (counts every start
position, used to check the spec phrase contains exactly once). -/
def chCount (needle : List Char) (hay : List Char) : Nat :=
  (if chIsPrefix needle hay then 1 else 0) +
    match hay with
    | [] => 0
    | _ :: t => chCount needle t

/-- Number of occurrences of needle inside s by start position. -/
def countSubstr (needle s : String) : Nat := chCount needle.data s.data

/-- Embedding of lodash includes on strings: substring test. -/
def js_includes (hay needle : String) : Bool := countSubstr needle hay != 0

/-- JavaScript truthiness of an optional string request field (undefined
and the empty string are falsy). -/
def truthy : Option String → Bool
  | some s => s != ""
  | none => false

mutual

/-- Embedding of the JavaScript toString rendering used by parseMessage.
Returns none exactly when the value is null or undefined: there reading
message.toString throws a TypeError (the lodash isFunction guard in the
source evaluates message.toString first, so the guard itself throws).
An Error renders as name: message, a plain object as the literal
text used by Object.prototype.toString, an array joins its elements with
commas rendering null/undefined elements as empty text. -/
def toStringJs : JsVal → Option String
  | .vNull => none
  | .vUndefined => none
  | .vStr s => some s
  | .vNum n => some (toString n)
  | .vBool b => some (if b then "true" else "false")
  | .vFunc => some "function"
  | .vErrObj name message _ _ =>
      some (if name = "" then message
            else if message = "" then name
            else name ++ ": " ++ message)
  | .vAgg _ => some "AggregateError"
  | .vArr _ xs => some (joinComma xs)
  | .vObj _ _ => some "[object Object]"

/-- Array.prototype.toString: elements joined with commas; null and
undefined elements render as empty text. -/
def joinComma : List JsVal → String
  | [] => ""
  | [x] => (toStringJs x).getD ""
  | x :: xs => (toStringJs x).getD "" ++ "," ++ joinComma xs

end

/-- Step one of parseMessage: append a full stop unless the text already
ends in a full stop or a question mark. -/
def punctuate (s : String) : String :=
  if js_endsWith s "." || js_endsWith s "?" then s else s ++ "."

/-- Step two of parseMessage: prepend the correlation-code tag when a
code is present (lodash isNil check on errorCode in the source). -/
def prependCode (errorCode : Option String) (s : String) : String :=
  match errorCode with
  | none => s
  | some c => "Error #" ++ c ++ ": " ++ s

/-- Step three of parseMessage: prepend the literal text Error: unless
the (already code-tagged) text starts with Error. -/
def ensureErrorHead (s : String) : String :=
  if js_startsWith s "Error" then s else "Error: " ++ s

/-- The three formatting steps of parseMessage in their source order:
terminal punctuation, then the code tag, then the Error-head check
against the already code-tagged text. -/
def fmtMsg (errorCode : Option String) (msgString : String) : String :=
  ensureErrorHead (prependCode errorCode (punctuate msgString))

/-- Inner parseMessage of cmUtils.parseError.  The sqlError branch of the
source is dead code here: the module ../sql/error does not exist in the
repository, so optional-require returns undefined and the instanceof
check is never reached.  The remaining body stringifies the message and
applies the three formatting steps; on null/undefined it throws
(returns none), because reading message.toString throws. -/
def parseMessage (errorCode : Option String) (message : JsVal) : Option String :=
  (toStringJs message).map (fmtMsg errorCode)

/-- Result shape of parseError: a correlation code and either one
formatted string or a list of them, mirroring the input shape. -/
inductive MsgVal where
  | str (s : String)
  | strList (l : List String)
  | undefined

/-- Result record of cmUtils.parseError. -/
structure NormalizedError where
  code : Option String
  errors : MsgVal

/-- The correlation code argument of parseMessage: the fresh random hex
string when withCode is set, null otherwise. -/
def codeOfFlag (randomHex : String) (withCode : Bool) : Option String :=
  if withCode then some randomHex else none

/-- Sequential formatting of a list of error values (the lodash reduce
with push in the source, and the AggregateError map): order preserved,
and the first throwing element aborts the whole call. -/
def parseList (errorCode : Option String) : List JsVal → Option (List String)
  | [] => some []
  | x :: xs =>
      match parseMessage errorCode x, parseList errorCode xs with
      | some y, some l => some (y :: l)
      | _, _ => none

/-- Embedding of cmUtils.parseError.  Branch order follows the source:
Array.isArray first, then instanceof Promise.AggregateError, then the
single-value path.  Logging is a side effect and is not modelled.  The
random correlation code is the randomHex parameter. -/
def parseError (err : JsVal) (randomHex : String) (withCode : Bool) :
    Option NormalizedError :=
  match err with
  | .vArr _ xs =>
      (parseList (codeOfFlag randomHex withCode) xs).map
        (fun l => ⟨codeOfFlag randomHex withCode, .strList l⟩)
  | .vAgg xs =>
      (parseList (codeOfFlag randomHex withCode) xs).map
        (fun l => ⟨codeOfFlag randomHex withCode, .strList l⟩)
  | e =>
      (parseMessage (codeOfFlag randomHex withCode) e).map
        (fun s => ⟨codeOfFlag randomHex withCode, .str s⟩)

/-- One entry of the static error-code table of common/enum.js. -/
structure DataResponseEntry where
  errorCode : String
  message : String

/-- The static DataResponse table of common/enum.js. -/
def DataResponse : List DataResponseEntry :=
  [⟨"0", "Success"⟩, ⟨"1", "Invalid Session"⟩]

/-- Embedding of cmEnum.get_DataResponse: linear scan, first match or
undefined. -/
def get_DataResponse (code : String) : Option DataResponseEntry :=
  DataResponse.find? (fun x => x.errorCode == code)

/-- Argument selection of app.js _simplifyError: a plain object carrying
a message property contributes that property, every other value is
passed through unchanged (Error instances are not lodash plain objects).
-/
def simplifyArg (error : JsVal) : JsVal :=
  match error with
  | .vObj fr fs =>
      match lookupField fs "message" with
      | some m => m
      | none => .vObj fr fs
  | e => e

/-- Embedding of app.js _simplifyError: extract the message of a plain
object, run parseError with a code, return its result (the log line is a
side effect). -/
def simplifyError (randomHex : String) (error : JsVal) : Option NormalizedError :=
  parseError (simplifyArg error) randomHex true

/-- Request-scoped scratch fields consumed by the success middleware:
none models an undefined field, and an unset answer is vUndefined. -/
structure ReqScratch where
  status : Option Nat
  answer : JsVal
  errorCode : Option String
  message : Option String

/-- Does the value equal the JavaScript undefined. -/
def isUndefined : JsVal → Bool
  | .vUndefined => true
  | _ => false

/-- Body of a JSON response envelope; none on a field models an absent
key (the error middleware never adds data, the success middleware
always does). -/
structure Envelope where
  errorCode : Option String
  message : Option MsgVal
  data : Option JsVal

/-- One write against the Express response object. -/
inductive ResWrite where
  | sendStatus (status : Nat)
  | jsonWrite (status : Nat) (body : Envelope)

/-- The res.status default of both middlewares: lodash get of req.status
with default 200. -/
def statusOf (req : ReqScratch) : Nat := req.status.getD 200

/-- The explicit message value placed in the envelope on the
explicit-message branch: req.message verbatim, undefined when the
handler set none (res.json drops an undefined key). -/
def explicitMsg : Option String → MsgVal
  | some m => .str m
  | none => .undefined

/-- Embedding of app.js _genericSuccessMiddleware.  The 404 guard in the
source has no return statement, so after res.sendStatus(404) execution
falls through into the envelope branches, which always perform a second
res.status(...).json(...) call: the result is the ordered list of write
attempts.  The branch structure mirrors the source condition
(req.message or lookup-miss chooses the explicit-message envelope,
otherwise the table message is run through _simplifyError). -/
def genericSuccessMiddleware (req : ReqScratch) (randomHex : String) :
    Except Unit (List ResWrite) :=
  let first : List ResWrite :=
    if req.status.isNone && isUndefined req.answer then [.sendStatus 404] else []
  if truthy req.errorCode then
    let codeStr := req.errorCode.getD ""
    match get_DataResponse codeStr with
    | none =>
        .ok (first ++ [.jsonWrite (statusOf req)
          ⟨some codeStr, some (explicitMsg req.message), some req.answer⟩])
    | some d =>
        if truthy req.message then
          .ok (first ++ [.jsonWrite (statusOf req)
            ⟨some codeStr, some (explicitMsg req.message), some req.answer⟩])
        else
          match simplifyError randomHex (.vStr d.message) with
          | some e =>
              .ok (first ++ [.jsonWrite (statusOf req)
                ⟨some codeStr, some e.errors, some req.answer⟩])
          | none => .error ()
  else
    .ok (first ++ [.jsonWrite (statusOf req)
      ⟨some "0", some (.str "Success"), some req.answer⟩])

/-- The code property of a thrown value (err.code in the source). -/
def errCode : JsVal → Option String
  | .vErrObj _ _ code _ => code
  | .vObj _ fs =>
      match lookupField fs "code" with
      | some (.vStr s) => some s
      | _ => none
  | _ => none

/-- Lodash get of err.status with default 200. -/
def errStatus : JsVal → Nat
  | .vErrObj _ _ _ st => st.getD 200
  | .vObj _ fs =>
      match lookupField fs "status" with
      | some (.vNum n) => n.toNat
      | _ => 200
  | _ => 200

/-- The name property of a thrown value (err.name in the source). -/
def errName : JsVal → Option String
  | .vErrObj name _ _ _ => some name
  | .vAgg _ => some "AggregateError"
  | .vObj _ fs =>
      match lookupField fs "name" with
      | some (.vStr s) => some s
      | _ => none
  | _ => none

/-- The lodash includes check of the error middleware: err.name contains
the text Sequelize (false when name is undefined). -/
def nameHasSequelize (err : JsVal) : Bool :=
  match errName err with
  | some n => js_includes n "Sequelize"
  | none => false

/-- Embedding of app.js _genericErrorMiddleware.  On a truthy err.code
the static table is consulted with no undefined guard: a lookup miss
makes the middleware itself throw a TypeError reading errorCode of
undefined, modelled as Except.error, and no envelope is written.
Otherwise the status is forced to 500 and the message is the normalized
form of either the fixed text Connection Database Fail (when the name
mentions Sequelize) or the thrown value itself; that branch carries no
errorCode key. -/
def genericErrorMiddleware (err : JsVal) (randomHex : String) :
    Except Unit ResWrite :=
  let httpStatus := errStatus err
  if truthy (errCode err) then
    match get_DataResponse ((errCode err).getD "") with
    | none => .error ()
    | some d =>
        match simplifyError randomHex (.vStr d.message) with
        | some e => .ok (.jsonWrite httpStatus ⟨some d.errorCode, some e.errors, none⟩)
        | none => .error ()
  else
    if nameHasSequelize err then
      match simplifyError randomHex (.vStr "Connection Database Fail") with
      | some e => .ok (.jsonWrite 500 ⟨none, some e.errors, none⟩)
      | none => .error ()
    else
      match simplifyError randomHex err with
      | some e => .ok (.jsonWrite 500 ⟨none, some e.errors, none⟩)
      | none => .error ()

/-- One row of the role table (src/sql model role). -/
structure Role where
  id : Nat
  role_code : Int
  role_name : String

/-- Sequelize findOne with a primary-key where clause. -/
def findRole (db : List Role) (roleId : Nat) : Option Role :=
  db.find? (fun r => r.id == roleId)

/-- The JSON rendering of a role row placed in req.answer. -/
def roleToJs (r : Role) : JsVal :=
  .vObj false
    [("id", .vNum r.id), ("role_code", .vNum r.role_code),
     ("role_name", .vStr r.role_name)]

/-- Embedding of role-function updateRole: a missing row throws an Error
carrying code 001001, an empty roleName throws code 001002, otherwise
the row is renamed and re-read and becomes req.answer.  Thrown values
are returned through Except.error and reach the error middleware via
next(err). -/
def updateRole (db : List Role) (roleId : Nat) (roleName : String) :
    Except JsVal (List Role × JsVal) :=
  match findRole db roleId with
  | none => .error (.vErrObj "Error" "" (some "001001") none)
  | some _ =>
      if roleName = "" then .error (.vErrObj "Error" "" (some "001002") none)
      else
        let db2 := db.map (fun r =>
          if r.id == roleId then Role.mk r.id r.role_code roleName else r)
        match findRole db2 roleId with
        | some nd => .ok (db2, roleToJs nd)
        | none => .ok (db2, .vNull)

/-- The middleware pipeline around updateRole: a thrown value goes to the
error middleware, a normal completion sets req.answer and falls through
to the success middleware. -/
def updateRoleOutcome (db : List Role) (roleId : Nat) (roleName : String)
    (randomHex : String) : Except Unit (List ResWrite) :=
  match updateRole db roleId roleName with
  | .error e => (genericErrorMiddleware e randomHex).map (fun w => [w])
  | .ok (_, answer) =>
      genericSuccessMiddleware (ReqScratch.mk none answer none none) randomHex

/-- The frozen DEFAULTS tree of configuration.js.  isHttps is the
process.argv probe, passed in as a parameter.  The database.sql.timezone
getter always yields the DEFAULTS timezone value +08:00 and is embedded
as that leaf. -/
def DEFAULTS (isHttps : Bool) : JsVal :=
  .vObj true
    [("timezone", .vStr "+08:00"),
     ("timeZoneString", .vStr "Asia/Singapore"),
     ("tempFolder", .vStr "tmp"),
     ("server", .vObj false
       [("name", .vStr "Ezy2Ship-Kiosk-Api"),
        ("isSandbox", .vBool true),
        ("isHttps", .vBool isHttps),
        ("domain", .vStr ""),
        ("frontendUrl", .vStr ""),
        ("http", .vObj false [("port", .vNum 8090)]),
        ("https", .vObj false
          [("port", .vNum 443),
           ("ssl", .vObj false
             [("cert", .vStr ""), ("key", .vStr ""),
              ("intermediates", .vArr false [])])]),
        ("limition", .vObj false
          [("json", .vStr "50mb"), ("urlencoded", .vStr "50mb"),
           ("text", .vStr "50mb")]),
        ("cors", .vObj false
          [("credentials", .vBool true),
           ("methods", .vArr false
             [.vStr "GET", .vStr "HEAD", .vStr "PUT", .vStr "PATCH",
              .vStr "POST", .vStr "DELETE"]),
           ("exposedHeaders", .vArr false [.vStr "Content-Disposition"]),
           ("origin", .vArr false [.vStr ""])]),
        ("urls", .vObj false
          [("default", .vStr "/"),
           ("static", .vArr false []),
           ("web_routers", .vArr false
             [.vObj false
               [("csrf", .vBool false), ("path", .vStr "/role"),
                ("file", .vStr "./src/data/role/role-router")]])])]),
     ("provider", .vObj false []),
     ("sms", .vObj false
       [("nexmo", .vObj false []), ("sinch", .vObj false []),
        ("wavecell", .vObj false [])]),
     ("database", .vObj false
       [("sql", .vObj false
         [("username", .vStr ""), ("password", .vStr ""),
          ("host", .vStr ""), ("port", .vStr ""),
          ("dialect", .vStr ""), ("database", .vStr ""),
          ("expiration", .vNum 86400), ("clearExpired", .vBool false),
          ("timezone", .vStr "+08:00"),
          ("pool", .vObj false
            [("max", .vNum 100), ("min", .vNum 0),
             ("acquire", .vNum 30000), ("idle", .vNum 10000)])])]),
     ("auth", .vObj false
       [("login", .vObj false
         [("maxFailAttempts", .vNum 5),
          ("waitingTimeAfterLocked", .vNum 60)]),
        ("otp", .vObj false
          [("digits", .vBool true), ("alphabets", .vBool false),
           ("specialchars", .vBool false), ("uppercase", .vBool false),
           ("expiretime", .vObj false
             [("default", .vNum 60), ("forgotpin", .vNum 60),
              ("changeemail", .vNum 300)])]),
        ("password", .vObj false
          [("complex", .vBool true), ("length", .vNum 8),
           ("default", .vBool false)]),
        ("token", .vObj false
          [("key", .vStr "x-access-token"),
           ("valid", .vObj false [("all", .vNum 86400)])]),
        ("session", .vObj false
          [("valid", .vObj false [("all", .vNum 900)])])]),
     ("mail", .vObj false
       [("content", .vObj false
         [("subjectPrefix", .vStr "[dbo]"), ("reply", .vStr ""),
          ("cc", .vArr false [])]),
        ("emailfrom", .vStr ""),
        ("config", .vObj false [])]),
     ("features", .vObj false
       [("file_offline", .vObj false
         [("file_temp", .vStr ""), ("file_csv", .vStr "")])]),
     ("log", .vObj false
       [("appenders", .vObj false
         [("console", .vObj false [("type", .vStr "console")]),
          ("stdout", .vObj false [("type", .vStr "stdout")]),
          ("singleLogFile", .vObj false
            [("type", .vStr "file"), ("filename", .vStr "./log/index.out"),
             ("maxLogSize", .vNum 10000000), ("backups", .vNum 10)]),
          ("dailyLogFile", .vObj false
            [("type", .vStr "dateFile"),
             ("filename", .vStr "./log/index.out"),
             ("daysToKeep", .vNum 30)]),
          ("dailyErrorFile", .vObj false
            [("type", .vStr "dateFile"),
             ("filename", .vStr "./log/index.err"),
             ("daysToKeep", .vNum 30)]),
          ("errors", .vObj false
            [("type", .vStr "logLevelFilter"),
             ("appender", .vStr "dailyErrorFile"),
             ("level", .vStr "error")])]),
        ("categories", .vObj false
          [("default", .vObj false
            [("appenders", .vArr false [.vStr "console"]),
             ("level", .vStr "info")])])])]

mutual

/-- Embedding of lodash merge on values.  Plain objects merge key-wise
(source keys shadow, destination keys and positions survive); arrays
merge index-wise (a source element replaces the destination element at
the same index, surplus destination elements survive); an undefined
source value keeps the destination value; any other source value
replaces the destination.  Merged containers are freshly allocated, so
their freeze flag is cleared.  Lodash merging of a plain object into an
array by numeric keys is not exercised by this program and is modelled
as the object replacing the array. -/
def jsMerge : JsVal → JsVal → JsVal
  | .vObj _ df, .vObj _ sf => .vObj false (mergeFields df sf)
  | _, .vObj _ sf => .vObj false (mergeFields [] sf)
  | .vArr _ di, .vArr _ si => .vArr false (mergeItems di si)
  | _, .vArr _ si => .vArr false (mergeItems [] si)
  | dv, .vUndefined => dv
  | _, sv => sv

/-- Key-wise merge of object field lists: iterate the source fields,
merging each into the destination slot (undefined when absent). -/
def mergeFields : List (String × JsVal) → List (String × JsVal) →
    List (String × JsVal)
  | df, [] => df
  | df, (k, sv) :: rest =>
      let dv := match lookupField df k with
        | some w => w
        | none => JsVal.vUndefined
      mergeFields (upsertField df k (jsMerge dv sv)) rest

/-- Index-wise merge of array element lists: source elements merge into
the destination elements position by position, surplus destination
elements survive. -/
def mergeItems : List JsVal → List JsVal → List JsVal
  | di, [] => di
  | [], sv :: rest => jsMerge .vUndefined sv :: mergeItems [] rest
  | dv :: di, sv :: rest => jsMerge dv sv :: mergeItems di rest

end

/-- Object.freeze as performed by _setConfiguration: a shallow freeze
setting the flag of the top node only. -/
def freezeTop : JsVal → JsVal
  | .vObj _ fs => .vObj true fs
  | .vArr _ xs => .vArr true xs
  | v => v

/-- Lodash dotted-path splitting (stringToPath restricted to plain dot
paths, the only kind this program uses). -/
def splitDotAux : List Char → List Char → List String
  | [], acc => [String.mk acc.reverse]
  | c :: rest, acc =>
      if c = '.' then String.mk acc.reverse :: splitDotAux rest []
      else splitDotAux rest (c :: acc)

/-- Split a dotted configuration key into path segments. -/
def splitDot (s : String) : List String := splitDotAux s.data []

/-- Lodash get along a path: undefined as soon as the walk leaves the
object tree. -/
def lodashGet : JsVal → List String → JsVal
  | v, [] => v
  | .vObj _ fs, k :: rest =>
      (match lookupField fs k with
       | some w => lodashGet w rest
       | none => .vUndefined)
  | _, _ :: _ => .vUndefined

/-- Embedding of configuration.js exports.get (_getConfiguration): lodash
get with a default, returning the whole tree when the key is falsy; the
missing-key warning is a side effect. -/
def configGet (c : JsVal) (key : String) (defaultValue : JsVal) : JsVal :=
  let value := match lodashGet c (splitDot key) with
    | .vUndefined => defaultValue
    | v => v
  if key = "" then c else value

/-- Strict-mode property assignment along a path: walking into any node
is free, but assigning a property of a frozen receiver throws (none), as
does walking through a missing key or a non-object.  This models the raw
JavaScript assignments configuration.js performs after the freeze. -/
def jsSet : JsVal → List String → JsVal → Option JsVal
  | _, [], _ => none
  | .vObj fr fs, [k], v =>
      if fr then none else some (.vObj fr (upsertField fs k v))
  | .vObj fr fs, k :: k2 :: rest, v =>
      (match lookupField fs k with
       | some w => (jsSet w (k2 :: rest) v).map
           (fun w2 => .vObj fr (upsertField fs k w2))
       | none => none)
  | _, _ :: _, _ => none

/-- The layout object _setConfiguration assigns onto every log appender
(the lineNo token is an opaque function). -/
def layoutValue : JsVal :=
  .vObj false
    [("type", .vStr "pattern"),
     ("pattern", .vStr "%[[%d] [%p] \x7b%x\x7blineNo\x7d\x7d %]\n<%c> %m"),
     ("tokens", .vObj false [("lineNo", .vFunc)])]

/-- The lodash each loop of _setConfiguration: assign the layout onto
each appender of the already frozen tree, aborting (throwing) if any
assignment hits a frozen or primitive receiver. -/
def setLayouts : List String → JsVal → Option JsVal
  | [], c => some c
  | k :: rest, c =>
      match jsSet c ["log", "appenders", k, "layout"] layoutValue with
      | some c2 => setLayouts rest c2
      | none => none

/-- The tree produced by Object.freeze(lodash merge of an empty object,
DEFAULTS and the user settings object): nested nodes are fresh and
unfrozen, only the top node is frozen. -/
def mergedConfig (isHttps : Bool) (userSettings : List (String × JsVal)) : JsVal :=
  freezeTop (jsMerge (jsMerge (.vObj false []) (DEFAULTS isHttps))
    (.vObj false userSettings))

/-- Embedding of configuration.js _setConfiguration: merge and freeze,
then mutate the nested log appenders of the frozen tree in place (this
succeeds because the freeze is shallow); log4js.configure is a side
effect. -/
def setConfiguration (isHttps : Bool) (userSettings : List (String × JsVal)) :
    Option JsVal :=
  match lodashGet (mergedConfig isHttps userSettings) ["log", "appenders"] with
  | .vObj _ fs => setLayouts (fs.map Prod.fst) (mergedConfig isHttps userSettings)
  | _ => some (mergedConfig isHttps userSettings)

/-- The strings carried by a MsgVal (for quantifying over every string in
an errors field). -/
def msgStrings : MsgVal → List String
  | .str s => [s]
  | .strList l => l
  | .undefined => []

/-- A source value lodash merge assigns outright: everything except
undefined, plain objects and arrays. -/
def isPrimLeaf : JsVal → Bool
  | .vUndefined => false
  | .vObj _ _ => false
  | .vArr _ _ => false
  | _ => true

/-- Array or aggregate: the two parseError branches that map over
elements instead of formatting one string. -/
def isArrayLike : JsVal → Bool
  | .vArr _ _ => true
  | .vAgg _ => true
  | _ => false

/-- Inputs on which parseError does not throw: the value, and every
element when it is an array or aggregate, must not be null or undefined.
-/
def notNil : JsVal → Bool
  | .vNull => false
  | .vUndefined => false
  | _ => true

/-- Safety predicate for parseError inputs. -/
def parseSafe : JsVal → Bool
  | .vArr _ xs => xs.all notNil
  | .vAgg xs => xs.all notNil
  | v => notNil v

/-- The user-settings override used to exhibit index-wise array merging:
it replaces server.cors.methods with a one-element array. -/
def corsOverride : List (String × JsVal) :=
  [("server", .vObj false
    [("cors", .vObj false [("methods", .vArr false [.vStr "POST"])])])]

-- THEOREM SECTION

/-- String append acts as list append on the character data. -/
theorem strDataAppend (s t : String) : (s ++ t).data = s.data ++ t.data := by
  cases s; cases t; rfl

/-- String append is associative. -/
theorem strAppend_assoc (a b c : String) : (a ++ b) ++ c = a ++ (b ++ c) := by
  cases a; cases b; cases c
  show String.mk _ = String.mk _
  rw [List.append_assoc]

/-- A prefix of a list is a prefix of any extension of it. -/
theorem chIsPrefix_append (p a b : List Char)
    (h : chIsPrefix p a = true) : chIsPrefix p (a ++ b) = true := by
  induction p generalizing a with
  | nil => rfl
  | cons q ps ih =>
      cases a with
      | nil => cases h
      | cons x xs =>
          simp only [chIsPrefix, Bool.and_eq_true] at h
          simp only [List.cons_append, chIsPrefix, Bool.and_eq_true]
          exact ⟨h.1, ih xs h.2⟩

/-- Any list is a prefix of itself followed by anything. -/
theorem chIsPrefix_self (p b : List Char) : chIsPrefix p (p ++ b) = true := by
  induction p with
  | nil => rfl
  | cons q ps ih =>
      simp only [List.cons_append, chIsPrefix, Bool.and_eq_true]
      exact ⟨by simp, ih⟩

/-- startsWith survives appending on the right. -/
theorem js_startsWith_append (a b p : String)
    (h : js_startsWith a p = true) : js_startsWith (a ++ b) p = true := by
  simp only [js_startsWith, strDataAppend] at h ⊢
  exact chIsPrefix_append _ _ _ h

/-- A string starts with itself followed by anything. -/
theorem js_startsWith_self (p b : String) : js_startsWith (p ++ b) p = true := by
  simp only [js_startsWith, strDataAppend]
  exact chIsPrefix_self _ _

/-- endsWith survives appending on the left. -/
theorem js_endsWith_append (a b p : String)
    (h : js_endsWith b p = true) : js_endsWith (a ++ b) p = true := by
  simp only [js_endsWith, strDataAppend, List.reverse_append] at h ⊢
  exact chIsPrefix_append _ _ _ h

/-- The punctuation step always yields a full stop or question mark at
the end. -/
theorem punctuate_ends (s : String) :
    js_endsWith (punctuate s) "." = true ∨ js_endsWith (punctuate s) "?" = true := by
  unfold punctuate
  split
  · rename_i h
    rcases Bool.or_eq_true_iff.mp h with h1 | h1
    · exact Or.inl h1
    · exact Or.inr h1
  · exact Or.inl (js_endsWith_append s "." "." rfl)

/-- The code tag preserves the terminal character. -/
theorem prependCode_ends (c : Option String) (s p : String)
    (h : js_endsWith s p = true) : js_endsWith (prependCode c s) p = true := by
  cases c with
  | none => exact h
  | some cc =>
      simp only [prependCode]
      exact js_endsWith_append ("Error #" ++ cc ++ ": ") s p h

/-- The Error-head step preserves the terminal character. -/
theorem ensureErrorHead_ends (s p : String)
    (h : js_endsWith s p = true) : js_endsWith (ensureErrorHead s) p = true := by
  unfold ensureErrorHead
  split
  · exact h
  · exact js_endsWith_append "Error: " s p h

/-- The Error-head step guarantees the Error head. -/
theorem ensureErrorHead_starts (s : String) :
    js_startsWith (ensureErrorHead s) "Error" = true := by
  unfold ensureErrorHead
  split
  · rename_i h; exact h
  · exact js_startsWith_append "Error: " s "Error" rfl

/-- With a code present, the formatted message is exactly the code tag in
front of the punctuated text (the Error-head check is a no-op because
the tagged text already starts with Error). -/
theorem fmtMsg_code (rc s : String) :
    fmtMsg (some rc) s = "Error #" ++ rc ++ ": " ++ punctuate s := by
  have h1 : prependCode (some rc) (punctuate s) =
      "Error #" ++ rc ++ ": " ++ punctuate s := rfl
  unfold fmtMsg
  rw [h1]
  unfold ensureErrorHead
  rw [if_pos (js_startsWith_append ("Error #" ++ rc ++ ": ") (punctuate s) "Error"
    (js_startsWith_append ("Error #" ++ rc) ": " "Error"
      (js_startsWith_append "Error #" rc "Error" rfl)))]

/-- The three guarantees of one formatted message: terminal punctuation,
Error head, and (when a code is present) the code tag as a prefix. -/
theorem fmtMsg_spec (c : Option String) (s0 : String) :
    (js_endsWith (fmtMsg c s0) "." = true ∨ js_endsWith (fmtMsg c s0) "?" = true) ∧
    js_startsWith (fmtMsg c s0) "Error" = true ∧
    ∀ rc, c = some rc → js_startsWith (fmtMsg c s0) ("Error #" ++ rc ++ ": ") = true := by
  refine ⟨?_, ensureErrorHead_starts _, ?_⟩
  · rcases punctuate_ends s0 with h | h
    · exact Or.inl (ensureErrorHead_ends _ _ (prependCode_ends c _ _ h))
    · exact Or.inr (ensureErrorHead_ends _ _ (prependCode_ends c _ _ h))
  · intro rc hc
    subst hc
    rw [fmtMsg_code]
    exact js_startsWith_self ("Error #" ++ rc ++ ": ") (punctuate s0)

/-- A successful parseList yields only formatted messages. -/
theorem parseList_mem (c : Option String) (xs : List JsVal) :
    ∀ (l : List String), parseList c xs = some l →
      ∀ s ∈ l, ∃ x, parseMessage c x = some s := by
  induction xs with
  | nil =>
      intro l h s hs
      simp only [parseList] at h
      cases h
      cases hs
  | cons x xs ih =>
      intro l h s hs
      simp only [parseList] at h
      cases hy : parseMessage c x <;> rw [hy] at h
      · cases h
      cases hl : parseList c xs <;> rw [hl] at h
      · cases h
      cases h
      rename_i y l2
      cases hs with
      | head => exact ⟨x, hy⟩
      | tail _ hs2 => exact ih l2 hl s hs2

/-- A successful parseList has the input length and formats the input
elements position by position. -/
theorem parseList_shape (c : Option String) (xs : List JsVal) :
    ∀ (l : List String), parseList c xs = some l →
      l.length = xs.length ∧ ∀ i : Nat, (xs[i]?.bind (parseMessage c)) = l[i]? := by
  induction xs with
  | nil =>
      intro l h
      simp only [parseList] at h
      cases h
      exact ⟨rfl, fun i => by simp⟩
  | cons x xs ih =>
      intro l h
      simp only [parseList] at h
      cases hy : parseMessage c x <;> rw [hy] at h
      · cases h
      cases hl : parseList c xs <;> rw [hl] at h
      · cases h
      cases h
      rename_i y l2
      obtain ⟨hlen, hget⟩ := ih l2 hl
      refine ⟨by simp [hlen], fun i => ?_⟩
      cases i with
      | zero => simp [hy]
      | succ n => simpa using hget n

/-- Every value except null and undefined has a string rendering. -/
theorem toStringJs_notNil (v : JsVal) (h : notNil v = true) :
    (toStringJs v).isSome = true := by
  cases v <;> simp_all [toStringJs, notNil]

/-- parseList succeeds on a list of renderable values. -/
theorem parseList_safe (c : Option String) (xs : List JsVal)
    (h : xs.all notNil = true) : (parseList c xs).isSome = true := by
  induction xs with
  | nil => rfl
  | cons x xs ih =>
      simp only [List.all_cons, Bool.and_eq_true] at h
      have h1 := toStringJs_notNil x h.1
      obtain ⟨s0, hs0⟩ := Option.isSome_iff_exists.mp h1
      have h2 := ih h.2
      obtain ⟨l, hl⟩ := Option.isSome_iff_exists.mp h2
      simp [parseList, parseMessage, hs0, hl]

/-- parseError on a non-array, non-aggregate value takes the single-value
branch. -/
theorem parseError_single (v : JsVal) (rc : String) (wc : Bool)
    (h : isArrayLike v = false) :
    parseError v rc wc =
      (parseMessage (codeOfFlag rc wc) v).map
        (fun s => ⟨codeOfFlag rc wc, .str s⟩) := by
  cases v <;> first | rfl | simp [isArrayLike] at h

/-- jsMerge assigns a non-container, non-undefined source value outright.
-/
theorem jsMerge_leaf (dv sv : JsVal) (h : isPrimLeaf sv = true) :
    jsMerge dv sv = sv := by
  cases sv <;> cases dv <;> first | rfl | simp [isPrimLeaf] at h

/-- The index-wise merge of arrays keeps the longer length. -/
theorem mergeItems_length (d s : List JsVal) :
    (mergeItems d s).length = max d.length s.length := by
  induction s generalizing d with
  | nil => cases d <;> simp [mergeItems]
  | cons sv rest ih =>
      cases d with
      | nil =>
          simp only [mergeItems, List.length_cons, ih]
          simp [Nat.max_comm]
      | cons dv di =>
          simp only [mergeItems, List.length_cons, ih]
          omega

/-- The index-wise merge of arrays element by element: a source element
merges over the destination element at the same index, surplus
destination elements survive, and there is nothing past both lengths. -/
theorem mergeItems_get (d s : List JsVal) (i : Nat) :
    (mergeItems d s)[i]? =
      (match d[i]?, s[i]? with
       | some a, some b => some (jsMerge a b)
       | none, some b => some (jsMerge .vUndefined b)
       | some a, none => some a
       | none, none => none) := by
  induction s generalizing d i with
  | nil =>
      cases d with
      | nil => simp [mergeItems]
      | cons dv di => cases hh : (dv :: di)[i]? <;> simp [mergeItems, hh]
  | cons sv rest ih =>
      cases d with
      | nil =>
          cases i with
          | zero => simp [mergeItems]
          | succ n => simpa [mergeItems] using ih [] n
      | cons dv di =>
          cases i with
          | zero => simp [mergeItems]
          | succ n => simpa [mergeItems] using ih di n

/-- A deep strict-mode assignment into an object keeps its top node and
freeze flag. -/
theorem jsSet_deep (fr : Bool) (fs : List (String × JsVal)) (k k2 : String)
    (rest : List String) (v c2 : JsVal)
    (h : jsSet (.vObj fr fs) (k :: k2 :: rest) v = some c2) :
    ∃ fs2, c2 = .vObj fr fs2 := by
  simp only [jsSet] at h
  cases hw : lookupField fs k <;> rw [hw] at h
  · cases h
  · simp only [Option.map_eq_some'] at h
    obtain ⟨w2, _, hc⟩ := h
    exact ⟨_, hc.symm⟩

/-- The appender-layout loop keeps the frozen top node of the tree. -/
theorem setLayouts_top (keys : List String) :
    ∀ (fs : List (String × JsVal)) (c2 : JsVal),
      setLayouts keys (.vObj true fs) = some c2 → ∃ fs2, c2 = .vObj true fs2 := by
  induction keys with
  | nil =>
      intro fs c2 h
      simp only [setLayouts] at h
      cases h
      exact ⟨fs, rfl⟩
  | cons k rest ih =>
      intro fs c2 h
      simp only [setLayouts] at h
      cases hj : jsSet (.vObj true fs) ["log", "appenders", k, "layout"] layoutValue <;>
        rw [hj] at h
      · cases h
      · obtain ⟨fs1, rfl⟩ := jsSet_deep _ _ _ _ _ _ _ hj
        exact ih fs1 c2 h

/-- The merged and shallowly frozen configuration is an object whose top
freeze flag is set. -/
theorem mergedConfig_shape (ihttps : Bool) (us : List (String × JsVal)) :
    ∃ fs, mergedConfig ihttps us = .vObj true fs := ⟨_, rfl⟩

/-- Claim C5 (amended): after initialization the top level of the configuration
tree is frozen, so any strict-mode assignment to a top-level key throws
and has no effect; the freeze is shallow, so nested values stay mutable
(see the counterexample for an effectful nested mutation). -/
theorem claim_C5_amended (ihttps : Bool) (us : List (String × JsVal))
    (c : JsVal) (k : String) (v : JsVal)
    (h : setConfiguration ihttps us = some c) :
    jsSet c [k] v = none := by
  obtain ⟨fs0, hm⟩ := mergedConfig_shape ihttps us
  have htop : ∃ fs2, c = JsVal.vObj true fs2 := by
    simp only [setConfiguration] at h
    cases hscr : lodashGet (mergedConfig ihttps us) ["log", "appenders"] <;>
      rw [hscr] at h
    case vObj fr fs =>
      rw [hm] at h
      exact setLayouts_top _ _ _ h
    all_goals
      cases h
      exact ⟨fs0, hm⟩
  obtain ⟨fs2, rfl⟩ := htop
  simp [jsSet]

/-- Claim C5 (counterexample): the claim that mutation of a value returned by
get has no effect on later get calls fails: with empty user settings,
assigning server.name on the initialized tree succeeds (the nested
server object is not frozen) and a later get of server.name returns the
mutated value instead of the default. -/
theorem claim_C5_counterexample :
    ((setConfiguration false []).bind
        (fun c => jsSet c ["server", "name"] (.vStr "mutated"))).map
      (fun c2 => configGet c2 "server.name" .vUndefined) = some (.vStr "mutated") ∧
    (setConfiguration false []).map
      (fun c => configGet c "server.name" .vUndefined) =
      some (.vStr "Ezy2Ship-Kiosk-Api") := ⟨rfl, rfl⟩

/-- Claim C5 (witness): the amended theorem applied to the concrete initialized
tree with empty user settings and the top-level key timezone. -/
theorem claim_C5_witness :
    jsSet ((setConfiguration false []).getD .vNull) ["timezone"] (.vStr "x") = none :=
  claim_C5_amended false [] ((setConfiguration false []).getD .vNull) "timezone"
    (.vStr "x") rfl

/-- Claim C4 (counterexample): the claim that an override array replaces the
default array wholesale fails: overriding server.cors.methods (default
six methods) with the one-element array POST yields the index-wise merge
with the five surplus default elements retained, not the one-element
array. -/
theorem claim_C4_counterexample :
    (setConfiguration false corsOverride).map
      (fun c => configGet c "server.cors.methods" .vUndefined) =
      some (.vArr false [.vStr "POST", .vStr "HEAD", .vStr "PUT", .vStr "PATCH",
        .vStr "POST", .vStr "DELETE"]) ∧
    JsVal.vArr false [.vStr "POST", .vStr "HEAD", .vStr "PUT", .vStr "PATCH",
        .vStr "POST", .vStr "DELETE"] ≠ JsVal.vArr false [.vStr "POST"] := by
  refine ⟨rfl, ?_⟩
  intro h
  cases h

/-- Claim C4 (amended): the deep merge lets an override win at leaf granularity
(a non-container override value replaces the default outright), but an
override array is merged index-wise into the default array: the override
element replaces the default element position by position and default
elements past the override length are retained, so the array is not
replaced wholesale. -/
theorem claim_C4_amended (dv sv : JsVal) (d s : List JsVal) (i : Nat)
    (h : isPrimLeaf sv = true) :
    jsMerge dv sv = sv ∧
    (mergeItems d s).length = max d.length s.length ∧
    (mergeItems d s)[i]? =
      (match d[i]?, s[i]? with
       | some a, some b => some (jsMerge a b)
       | none, some b => some (jsMerge .vUndefined b)
       | some a, none => some a
       | none, none => none) :=
  ⟨jsMerge_leaf dv sv h, mergeItems_length d s, mergeItems_get d s i⟩

/-- Claim C4 (witness): the amended theorem at a concrete leaf override and
concrete arrays. -/
theorem claim_C4_witness :
    jsMerge (.vStr "old") (.vStr "new") = .vStr "new" ∧
    (mergeItems [.vNum 1, .vNum 2] [.vNum 9]).length =
      max [JsVal.vNum 1, JsVal.vNum 2].length [JsVal.vNum 9].length ∧
    (mergeItems [.vNum 1, .vNum 2] [.vNum 9])[0]? =
      (match [JsVal.vNum 1, JsVal.vNum 2][0]?, [JsVal.vNum 9][0]? with
       | some a, some b => some (jsMerge a b)
       | none, some b => some (jsMerge .vUndefined b)
       | some a, none => some a
       | none, none => none) :=
  claim_C4_amended (.vStr "old") (.vStr "new") [.vNum 1, .vNum 2] [.vNum 9] 0 rfl

/-- Claim C1: evaluation of the success middleware at the failing input — a
request whose handler set neither req.status nor req.answer (nor an
error code).  The middleware sends the 404 status and then, because the
404 guard has no return statement, falls through and performs a second
envelope write, violating the single-write invariant. -/
theorem claim_C1_failing (rc : String) :
    genericSuccessMiddleware (ReqScratch.mk none .vUndefined none none) rc =
      .ok [.sendStatus 404,
           .jsonWrite 200 ⟨some "0", some (.str "Success"), some .vUndefined⟩] := rfl

/-- Claim C2 (counterexample): when the message text already contains the code
tag, the output contains the tag twice, so the phrase exactly once in
the claim fails as a universal statement over inputs and generated
codes. -/
theorem claim_C2_counterexample :
    parseError (.vStr "Error #abcd1234: x.") "abcd1234" true =
      some (NormalizedError.mk (some "abcd1234")
        (.str "Error #abcd1234: Error #abcd1234: x.")) ∧
    countSubstr "Error #abcd1234: " "Error #abcd1234: Error #abcd1234: x." = 2 :=
  ⟨rfl, rfl⟩

/-- Claim C2 (amended): every string in the errors field ends in a full stop or
question mark and starts with Error, and when withCode is set it starts
with the tag Error #code-colon-space (hence contains it at least once;
exactly once cannot be guaranteed because the message may already
contain the tag).  The rules apply in the fixed source order: terminal
punctuation, then the code tag, then the Error-head check against the
already code-tagged string. -/
theorem claim_C2_amended (err : JsVal) (rc : String) (wc : Bool)
    (r : NormalizedError) (s : String)
    (h : parseError err rc wc = some r) (hs : s ∈ msgStrings r.errors) :
    (js_endsWith s "." = true ∨ js_endsWith s "?" = true) ∧
    js_startsWith s "Error" = true ∧
    (wc = true → js_startsWith s ("Error #" ++ rc ++ ": ") = true) := by
  have key : ∃ s0, s = fmtMsg (codeOfFlag rc wc) s0 := by
    cases herr : isArrayLike err with
    | true =>
        cases err <;> simp [isArrayLike] at herr
        case vAgg xs =>
          simp only [parseError, Option.map_eq_some'] at h
          obtain ⟨l, hl, hr⟩ := h
          subst hr
          simp only [msgStrings] at hs
          obtain ⟨x, hx⟩ := parseList_mem _ _ _ hl s hs
          simp only [parseMessage, Option.map_eq_some'] at hx
          obtain ⟨s0, _, hs0⟩ := hx
          exact ⟨s0, hs0.symm⟩
        case vArr fz xs =>
          simp only [parseError, Option.map_eq_some'] at h
          obtain ⟨l, hl, hr⟩ := h
          subst hr
          simp only [msgStrings] at hs
          obtain ⟨x, hx⟩ := parseList_mem _ _ _ hl s hs
          simp only [parseMessage, Option.map_eq_some'] at hx
          obtain ⟨s0, _, hs0⟩ := hx
          exact ⟨s0, hs0.symm⟩
    | false =>
        rw [parseError_single err rc wc herr] at h
        simp only [Option.map_eq_some'] at h
        obtain ⟨s1, hm, hr⟩ := h
        subst hr
        simp only [msgStrings, List.mem_singleton] at hs
        subst hs
        simp only [parseMessage, Option.map_eq_some'] at hm
        obtain ⟨s0, _, hs0⟩ := hm
        exact ⟨s0, hs0.symm⟩
  obtain ⟨s0, rfl⟩ := key
  obtain ⟨he, hstart, hcode⟩ := fmtMsg_spec (codeOfFlag rc wc) s0
  refine ⟨he, hstart, fun hwc => ?_⟩
  exact hcode rc (by subst hwc; rfl)

/-- Claim C2 (witness): the amended theorem at a single string input ending in
a question mark, with a code requested. -/
theorem claim_C2_witness :
    (js_endsWith "Error #abcd1234: ok?" "." = true ∨
     js_endsWith "Error #abcd1234: ok?" "?" = true) ∧
    js_startsWith "Error #abcd1234: ok?" "Error" = true ∧
    (true = true →
      js_startsWith "Error #abcd1234: ok?" ("Error #" ++ "abcd1234" ++ ": ") = true) :=
  claim_C2_amended (.vStr "ok?") "abcd1234" true
    (NormalizedError.mk (some "abcd1234") (.str "Error #abcd1234: ok?"))
    "Error #abcd1234: ok?" rfl (List.Mem.head _)

/-- Claim C3: evaluation of the full update pipeline at the failing input — a
roleId with no matching row.  The handler throws code 001001, the static
table has no such entry, and the error middleware itself throws instead
of writing the claimed business envelope: no response of any kind (in
particular no HTTP 200 envelope) is produced by the middleware. -/
theorem claim_C3_failing :
    updateRoleOutcome [Role.mk 1 10 "admin"] 2 "X" "abcd1234" = .error () := rfl

/-- Claim C6 (counterexample): parseError throws (modelled as none) on null and
on undefined, because reading message.toString on them throws a
TypeError before any fallback can apply. -/
theorem claim_C6_counterexample :
    parseError .vNull "abcd1234" true = none ∧
    parseError .vUndefined "abcd1234" true = none := ⟨rfl, rfl⟩

/-- Claim C6 (amended): parseError returns a result (never throws) for every
input that is not null or undefined and, when it is an array or
aggregate, has no null or undefined element; for null or undefined it
throws. -/
theorem claim_C6_amended (err : JsVal) (rc : String) (wc : Bool)
    (h : parseSafe err = true) : (parseError err rc wc).isSome = true := by
  cases herr : isArrayLike err with
  | true =>
      cases err <;> simp [isArrayLike] at herr
      case vAgg xs =>
        simp only [parseSafe] at h
        obtain ⟨l, hl⟩ := Option.isSome_iff_exists.mp
          (parseList_safe (codeOfFlag rc wc) xs h)
        simp [parseError, hl]
      case vArr fz xs =>
        simp only [parseSafe] at h
        obtain ⟨l, hl⟩ := Option.isSome_iff_exists.mp
          (parseList_safe (codeOfFlag rc wc) xs h)
        simp [parseError, hl]
  | false =>
      rw [parseError_single err rc wc herr]
      have hn : notNil err = true := by
        cases err <;> simp_all [parseSafe, notNil, isArrayLike]
      obtain ⟨s0, hs0⟩ := Option.isSome_iff_exists.mp (toStringJs_notNil err hn)
      simp [parseMessage, hs0]

/-- Claim C6 (witness): the amended theorem at a concrete Error value. -/
theorem claim_C6_witness :
    (parseError (.vErrObj "TypeError" "boom" none none) "abcd1234" true).isSome = true :=
  claim_C6_amended (.vErrObj "TypeError" "boom" none none) "abcd1234" true rfl

/-- Claim C9: for an array (or a bluebird aggregate) input, a successful
parseError returns a list of exactly as many formatted strings as there
are input values, the i-th output string being the formatting of the
i-th input value. -/
theorem claim_C9 (xs : List JsVal) (fz : Bool) (rc : String) (wc : Bool)
    (r : NormalizedError)
    (h : parseError (.vArr fz xs) rc wc = some r ∨
         parseError (.vAgg xs) rc wc = some r) :
    ∃ l, r.errors = MsgVal.strList l ∧ l.length = xs.length ∧
      ∀ i : Nat, (xs[i]?.bind (parseMessage (codeOfFlag rc wc))) = l[i]? := by
  have hl : ∃ l, parseList (codeOfFlag rc wc) xs = some l ∧
      r = NormalizedError.mk (codeOfFlag rc wc) (.strList l) := by
    cases h with
    | inl h =>
        simp only [parseError, Option.map_eq_some'] at h
        obtain ⟨l, hpl, hr⟩ := h
        exact ⟨l, hpl, hr.symm⟩
    | inr h =>
        simp only [parseError, Option.map_eq_some'] at h
        obtain ⟨l, hpl, hr⟩ := h
        exact ⟨l, hpl, hr.symm⟩
  obtain ⟨l, hpl, rfl⟩ := hl
  obtain ⟨hlen, hget⟩ := parseList_shape _ _ _ hpl
  exact ⟨l, rfl, hlen, hget⟩

/-- Claim C9 (witness): the order-preserving theorem at a concrete two-element
array. -/
theorem claim_C9_witness :
    ∃ l, (NormalizedError.mk (some "abcd1234")
        (.strList ["Error #abcd1234: a.", "Error #abcd1234: b?"])).errors =
        MsgVal.strList l ∧
      l.length = [JsVal.vStr "a", JsVal.vStr "b?"].length ∧
      ∀ i : Nat, ([JsVal.vStr "a", JsVal.vStr "b?"][i]?.bind
        (parseMessage (codeOfFlag "abcd1234" true))) = l[i]? :=
  claim_C9 [.vStr "a", .vStr "b?"] false "abcd1234" true
    (NormalizedError.mk (some "abcd1234")
      (.strList ["Error #abcd1234: a.", "Error #abcd1234: b?"]))
    (Or.inl rfl)

/-- Claim C10: for every thrown value whose code field is truthy but absent
from the static DataResponse table, the error middleware itself throws
(reading errorCode of the undefined lookup result) and writes no JSON
envelope. -/
theorem claim_C10 (err : JsVal) (rc : String)
    (h1 : truthy (errCode err) = true)
    (h2 : get_DataResponse ((errCode err).getD "") = none) :
    genericErrorMiddleware err rc = .error () := by
  simp [genericErrorMiddleware, h1, h2]

/-- Claim C10 (witness): the middleware crash at the concrete code 001001
thrown by updateRole for a missing role row. -/
theorem claim_C10_witness :
    genericErrorMiddleware (.vErrObj "Error" "" (some "001001") none) "abcd1234" =
      .error () :=
  claim_C10 (.vErrObj "Error" "" (some "001001") none) "abcd1234" rfl rfl

/-- Claim C7 (counterexample): a thrown plain object whose message property is
null has a falsy code, yet the middleware does not respond 500: the
normalization throws on the null message (message.toString), so the
middleware itself throws and writes nothing. -/
theorem claim_C7_counterexample :
    genericErrorMiddleware (.vObj false [("message", .vNull)]) "abcd1234" =
      .error () := rfl

/-- Claim C7 (amended): for a thrown value with an absent or falsy code whose
string form (after plain-object message extraction) is defined and which
is not an array or aggregate, the middleware responds 500 with a body
holding only a normalized message and no errorCode key; when the name
mentions Sequelize, the fixed safe text Connection Database Fail is
normalized instead of the raw error.  A thrown plain object carrying a
null or undefined message makes the middleware itself throw instead
(see the counterexample). -/
theorem claim_C7_amended (err : JsVal) (rc s : String)
    (hc : truthy (errCode err) = false)
    (hs : toStringJs (simplifyArg err) = some s)
    (hna : isArrayLike (simplifyArg err) = false) :
    genericErrorMiddleware err rc =
      .ok (.jsonWrite 500 ⟨none, some (.str (fmtMsg (some rc)
        (if nameHasSequelize err then "Connection Database Fail" else s))), none⟩) := by
  have hse : simplifyError rc err =
      some ⟨some rc, .str (fmtMsg (some rc) s)⟩ := by
    unfold simplifyError
    rw [parseError_single _ _ _ hna]
    simp [parseMessage, hs, codeOfFlag]
  have hcdf : simplifyError rc (.vStr "Connection Database Fail") =
      some ⟨some rc, .str (fmtMsg (some rc) "Connection Database Fail")⟩ := rfl
  cases hseq : nameHasSequelize err <;>
    simp [genericErrorMiddleware, hc, hseq, hse, hcdf]

/-- Claim C7 (witness): the amended theorem at a concrete Sequelize connection
error: the body message is the normalized fixed safe text. -/
theorem claim_C7_witness :
    genericErrorMiddleware
      (.vErrObj "SequelizeConnectionRefusedError" "ECONNREFUSED" none none)
      "abcd1234" =
    .ok (.jsonWrite 500 ⟨none,
      some (.str "Error #abcd1234: Connection Database Fail."), none⟩) :=
  claim_C7_amended
    (.vErrObj "SequelizeConnectionRefusedError" "ECONNREFUSED" none none)
    "abcd1234" "SequelizeConnectionRefusedError: ECONNREFUSED" rfl rfl rfl

/-- Claim C8: a handler that completes, sets errorCode 1, no explicit message
and no status override (and produced an answer) gets the HTTP 200
envelope whose message is the normalized static-table text Invalid
Session and whose data is the answer. -/
theorem claim_C8 (a : JsVal) (rc : String) (ha : isUndefined a = false) :
    genericSuccessMiddleware (ReqScratch.mk none a (some "1") none) rc =
      .ok [.jsonWrite 200 ⟨some "1",
        some (.str ("Error #" ++ rc ++ ": Invalid Session.")), some a⟩] := by
  have hmsg : fmtMsg (some rc) "Invalid Session" =
      "Error #" ++ rc ++ ": Invalid Session." := by
    rw [fmtMsg_code, strAppend_assoc]
    rfl
  have hse : simplifyError rc (.vStr "Invalid Session") =
      some ⟨some rc, .str (fmtMsg (some rc) "Invalid Session")⟩ := rfl
  have hdr : get_DataResponse "1" = some ⟨"1", "Invalid Session"⟩ := rfl
  simp [genericSuccessMiddleware, ha, hdr, hse, hmsg, statusOf, truthy]

/-- Claim C8 (witness): the theorem at a concrete empty-array answer. -/
theorem claim_C8_witness :
    genericSuccessMiddleware (ReqScratch.mk none (.vArr false []) (some "1") none)
      "abcd1234" =
    .ok [.jsonWrite 200 ⟨some "1",
      some (.str "Error #abcd1234: Invalid Session."), some (.vArr false [])⟩] :=
  claim_C8 (.vArr false []) "abcd1234" rfl
